import Mathlib

/-!
Verification of the source-image path resolver of the wan2gp source-images
plugin (files `src/utils.py` and `src/plugin.py`).

Modelling conventions:

* Filesystem paths are modelled as lists of path components (`FPath`);
  the string rendering used by the substring heuristics joins components
  with `"/"`.  `os.path.join dir filename` is `dir ++ [filename]`,
  `os.path.basename` is the last component.
* The filesystem is a finite list of entries, each an absolute path with a
  kind (regular file or directory) and a modification time.
  `os.path.isfile` / `os.path.isdir` / `os.path.getmtime` read this list.
* Python's recursive `glob.glob(os.path.join(d, "**", name), recursive=True)`
  matches every existing entry (file OR directory) whose path extends `d` by
  at least one component and whose last component is `name`; matches are
  listed in filesystem enumeration order, modelled as entry-list order.
  (Hidden dot-files, symlinks and race conditions are outside the model.)
* Python's `max(xs, key=k)` keeps the first element on ties and replaces the
  running best only on a strictly larger key (`pyMax`).
* Python falsiness: `None` and the empty string / list / dict are falsy.
  An absent string is modelled as the empty string, which the code treats
  identically (`if not filename`).
* Total Lean functions cannot raise, matching the code's no-exception paths.
-/

namespace Wan2GP

/-- A filesystem path, as its list of components. -/
abbrev FPath := List String

/-- Kind of a filesystem entry: a regular file or a directory. -/
inductive EntryKind where
  | file
  | dir
deriving DecidableEq, Repr

/-- One filesystem entry: absolute path, kind, and modification time. -/
structure Entry where
  path : FPath
  kind : EntryKind
  mtime : Nat
deriving DecidableEq, Repr

/-- The filesystem state visible to the plugin, together with the root
directory two levels above the plugin (`root_dir` in both source files). -/
structure FS where
  root : FPath
  entries : List Entry
deriving DecidableEq, Repr

/-- `os.path.isfile`. -/
def FS.isFile (fs : FS) (p : FPath) : Bool :=
  fs.entries.any fun e => e.path == p && e.kind == EntryKind.file

/-- `os.path.isdir`. -/
def FS.isDir (fs : FS) (p : FPath) : Bool :=
  fs.entries.any fun e => e.path == p && e.kind == EntryKind.dir

/-- `os.path.getmtime` (0 for a path with no entry; the code only reads
mtimes of glob results, which exist). -/
def FS.getmtime (fs : FS) (p : FPath) : Nat :=
  match fs.entries.find? (fun e => e.path == p) with
  | some e => e.mtime
  | none => 0

/-- Whether the recursive glob pattern `dir/**/filename` matches path `p`:
`p` strictly extends `dir` and its last component is `filename`. -/
def globMatch (dir : FPath) (filename : String) (p : FPath) : Bool :=
  dir.isPrefixOf p && decide (dir.length < p.length)
    && (p.getLast? == some filename)

/-- `glob.glob(os.path.join(dir, "**", filename), recursive=True)`:
all existing entries (files or directories) matched by the pattern,
in filesystem enumeration order. -/
def FS.glob (fs : FS) (dir : FPath) (filename : String) : List FPath :=
  (fs.entries.filter fun e => globMatch dir filename e.path).map Entry.path

/-- Python's `max(x :: xs, key)`: the first element with maximal key. -/
def pyMax {α : Type} (key : α → Nat) (x : α) (xs : List α) : α :=
  xs.foldl (fun b a => if key b < key a then a else b) x

/-- The default search directory `root_dir/outputs` used when no search
directories are supplied (`find_file_by_name`, src/utils.py lines 37-43). -/
def defaultOutputs (fs : FS) : FPath :=
  fs.root ++ ["outputs"]

/-- The directory loop of `find_file_by_name` (src/utils.py lines 46-63):
skip non-directories; return the direct child if it is a regular file;
otherwise, when recursive, return the most recently modified glob match of
the first directory with any match; otherwise continue. -/
def findLoop (fs : FS) (filename : String) (recursive : Bool) :
    List FPath → Option FPath
  | [] => none
  | d :: ds =>
    if fs.isDir d then
      if fs.isFile (d ++ [filename]) then some (d ++ [filename])
      else if recursive then
        match fs.glob d filename with
        | [] => findLoop fs filename recursive ds
        | m :: ms => some (pyMax fs.getmtime m ms)
      else findLoop fs filename recursive ds
    else findLoop fs filename recursive ds

/-- `find_file_by_name` (src/utils.py lines 18-63).  An empty (or absent)
filename yields `none`; an empty (or absent) search list is replaced by
`[root_dir/outputs]` (Python `if not search_dirs`). -/
def find_file_by_name (fs : FS) (filename : String) (search_dirs : List FPath)
    (recursive : Bool) : Option FPath :=
  if filename = "" then none
  else
    findLoop fs filename recursive
      (if search_dirs = [] then [defaultOutputs fs] else search_dirs)

/-- Substring test on character lists (Python's `in` operator on strings). -/
def hasSub (pat : List Char) : List Char → Bool
  | [] => pat.isEmpty
  | c :: cs => pat.isPrefixOf (c :: cs) || hasSub pat cs

/-- `s.lower()` as a character list. -/
def lowerStr (s : String) : List Char :=
  s.toList.map Char.toLower

/-- The string a component path denotes, used by the substring heuristics. -/
def pathRepr (p : FPath) : String :=
  String.intercalate "/" p

/-- `os.path.basename`, on a component path. -/
def basenameOf (p : FPath) : String :=
  (p.getLast?).getD ""

/-- The temp-path classification of `resolve_source_image`
(src/utils.py line 89):
`'gradio' in source_info.lower() and 'temp' in source_info.lower()`. -/
def resolve_is_temp (s : String) : Bool :=
  hasSub "gradio".toList (lowerStr s) && hasSub "temp".toList (lowerStr s)

/-- The temp-path classification of `resolve_and_build_info`
(src/plugin.py line 87): `'gradio' in path.lower() and
('temp' in path.lower() or 'appdata' in path.lower())`. -/
def build_is_temp (s : String) : Bool :=
  hasSub "gradio".toList (lowerStr s) &&
    (hasSub "temp".toList (lowerStr s) || hasSub "appdata".toList (lowerStr s))

/-- The `source_info` dict of the new format, with each key optional
(`dict.get`).  A record with all three keys absent is the empty dict. -/
structure SourceRecord where
  path : Option FPath
  filename : Option String
  is_temp : Option Bool
deriving DecidableEq, Repr

/-- Python truthiness of the record: the empty dict is falsy. -/
def SourceRecord.isEmptyDict (r : SourceRecord) : Bool :=
  r.path.isNone && r.filename.isNone && r.is_temp.isNone

/-- A Python value passed to `resolve_source_image`: a path string, a dict,
`None`, or a value of any other type. -/
inductive SourceInfo where
  | strVal (p : FPath)
  | dictVal (r : SourceRecord)
  | noneVal
  | otherVal
deriving DecidableEq, Repr

/-- `path and os.path.isfile(path)` for an optional path (`None` and the
empty string are falsy). -/
def pathTruthyFile (fs : FS) : Option FPath → Bool
  | some q => !q.isEmpty && fs.isFile q
  | none => false

/-- `resolve_source_image` (src/utils.py lines 66-126). -/
def resolve_source_image (fs : FS) (si : SourceInfo) (search_dirs : List FPath) :
    Option FPath :=
  match si with
  | SourceInfo.noneVal => none
  | SourceInfo.otherVal => none
  | SourceInfo.strVal p =>
    if p = [] then none
    else
      let is_temp := resolve_is_temp (pathRepr p)
      if !is_temp && fs.isFile p then some p
      else
        match find_file_by_name fs (basenameOf p) search_dirs true with
        | some q => some q
        | none => if fs.isFile p then some p else none
  | SourceInfo.dictVal r =>
    if r.isEmptyDict then none
    else
      let is_temp := r.is_temp.getD false
      if !is_temp && pathTruthyFile fs r.path then r.path
      else
        let found :=
          match r.filename with
          | some f => if f = "" then none else find_file_by_name fs f search_dirs true
          | none => none
        match found with
        | some q => some q
        | none => if pathTruthyFile fs r.path then r.path else none

/-- The relevant part of the host `server_config` read by
`get_configured_output_dirs` (src/plugin.py lines 40-70): the three save-path
keys and the custom search-directory list (`none` models an absent key, or a
non-list value for the custom list, which the code ignores). -/
structure Config where
  save_path : Option FPath
  image_save_path : Option FPath
  audio_save_path : Option FPath
  custom_dirs : Option (List FPath)
deriving DecidableEq, Repr

/-- `if path and os.path.isdir(path) and path not in search_dirs:
search_dirs.append(path)` for one optional configured path. -/
def addDirIfNew (fs : FS) (acc : List FPath) : Option FPath → List FPath
  | none => acc
  | some q =>
    if !q.isEmpty && fs.isDir q && !acc.contains q then acc ++ [q] else acc

/-- `get_configured_output_dirs` (src/plugin.py lines 40-70); `cfg = none`
models an absent plugin instance or server config. -/
def get_configured_output_dirs (fs : FS) (cfg : Option Config) : List FPath :=
  let fromConfig :=
    match cfg with
    | none => []
    | some c =>
      let a := addDirIfNew fs [] c.save_path
      let b := addDirIfNew fs a c.image_save_path
      let d := addDirIfNew fs b c.audio_save_path
      match c.custom_dirs with
      | some l =>
        l.foldl (fun acc q =>
          if !q.isEmpty && fs.isDir q && !acc.contains q then acc ++ [q] else acc) d
      | none => d
  if fs.isDir (defaultOutputs fs) && !fromConfig.contains (defaultOutputs fs) then
    fromConfig ++ [defaultOutputs fs]
  else fromConfig

/-- A Python value handed to `resolve_and_build_info`: `None`, a path
string, or a value of any other type. -/
inductive PyInput where
  | pyNone
  | pyStr (p : FPath)
  | pyOther
deriving DecidableEq, Repr

/-- The info dict built by `resolve_and_build_info`: `filename` and
`is_temp` always present, `original_path` / `temp_path` optional. -/
structure ImageInfo where
  filename : String
  is_temp : Bool
  original_path : Option FPath
  temp_path : Option FPath
deriving DecidableEq, Repr

/-- `resolve_and_build_info` (src/plugin.py lines 73-111). -/
def resolve_and_build_info (fs : FS) (cfg : Option Config) (input : PyInput) :
    Option ImageInfo :=
  match input with
  | PyInput.pyNone => none
  | PyInput.pyOther => none
  | PyInput.pyStr p =>
    if p = [] then none
    else
      let filename := basenameOf p
      let is_temp := build_is_temp (pathRepr p)
      if is_temp then
        match find_file_by_name fs filename (get_configured_output_dirs fs cfg) true with
        | some orig =>
          some { filename := filename, is_temp := is_temp,
                 original_path := some orig, temp_path := none }
        | none =>
          some { filename := filename, is_temp := is_temp,
                 original_path := none, temp_path := some p }
      else
        some { filename := filename, is_temp := is_temp,
               original_path := some p, temp_path := none }

/-- A value of the role map handed to `process_source_paths`: a list of
values, or a single value (`None`, a string, or anything else). -/
inductive RoleValue where
  | listVal (l : List PyInput)
  | single (v : PyInput)
deriving DecidableEq, Repr

/-- A value of the dict built by `process_source_paths`: a bare info dict
or a list of info dicts. -/
inductive RoleResult where
  | one (i : ImageInfo)
  | many (l : List ImageInfo)
deriving DecidableEq, Repr

/-- One iteration of the `process_source_paths` loop
(src/plugin.py lines 129-146): `None` values are skipped, list values are
mapped through `resolve_and_build_info` with `None` results dropped and a
singleton collapsed to the bare dict, string values store the single info
dict when built, and values of any other type are skipped. -/
def process_step (fs : FS) (cfg : Option Config)
    (acc : List (String × RoleResult)) (kv : String × RoleValue) :
    List (String × RoleResult) :=
  match kv.2 with
  | RoleValue.single PyInput.pyNone => acc
  | RoleValue.listVal l =>
    match l.filterMap (resolve_and_build_info fs cfg) with
    | [] => acc
    | [i] => acc ++ [(kv.1, RoleResult.one i)]
    | i :: j :: t => acc ++ [(kv.1, RoleResult.many (i :: j :: t))]
  | RoleValue.single (PyInput.pyStr p) =>
    match resolve_and_build_info fs cfg (PyInput.pyStr p) with
    | some i => acc ++ [(kv.1, RoleResult.one i)]
    | none => acc
  | RoleValue.single PyInput.pyOther => acc

/-- `process_source_paths` (src/plugin.py lines 114-148).  Dicts are
modelled as association lists in insertion order. -/
def process_source_paths (fs : FS) (cfg : Option Config)
    (source_paths : List (String × RoleValue)) :
    Option (List (String × RoleResult)) :=
  if source_paths.isEmpty then none
  else
    let result := source_paths.foldl (process_step fs cfg) []
    if result.isEmpty then none else some result

/-- A value of the stored `source_images` dict read back by
`get_source_images_from_metadata`: a list of stored values, or a single
stored value (string, dict, `None`, or anything else). -/
inductive MetaEntry where
  | listEntry (l : List SourceInfo)
  | singleEntry (v : SourceInfo)
deriving DecidableEq, Repr

/-- A value of the dict returned by `get_source_images_from_metadata`:
a bare path or a list of paths. -/
inductive ResolvedValue where
  | onePath (p : FPath)
  | manyPaths (l : List FPath)
deriving DecidableEq, Repr

/-- One iteration of the `get_source_images_from_metadata` loop
(src/utils.py lines 146-163): `None` values are skipped, list values are
mapped through `resolve_source_image` with failed resolutions dropped and a
singleton collapsed to the bare path, and any other value stores the single
resolved path when resolution succeeds. -/
def metadata_step (fs : FS) (search_dirs : List FPath)
    (acc : List (String × ResolvedValue)) (kv : String × MetaEntry) :
    List (String × ResolvedValue) :=
  match kv.2 with
  | MetaEntry.singleEntry SourceInfo.noneVal => acc
  | MetaEntry.listEntry l =>
    match l.filterMap (fun item => resolve_source_image fs item search_dirs) with
    | [] => acc
    | [p] => acc ++ [(kv.1, ResolvedValue.onePath p)]
    | p :: q :: t => acc ++ [(kv.1, ResolvedValue.manyPaths (p :: q :: t))]
  | MetaEntry.singleEntry v =>
    match resolve_source_image fs v search_dirs with
    | some p => acc ++ [(kv.1, ResolvedValue.onePath p)]
    | none => acc

/-- `get_source_images_from_metadata` (src/utils.py lines 129-165).
The argument is `metadata.get('source_images', {})`, with `none` modelling
an absent key.  The Python `None` result value never occurs: the function
returns a dict (possibly empty) on every input, modelled as `some`. -/
def get_source_images_from_metadata (fs : FS)
    (source_images : Option (List (String × MetaEntry)))
    (search_dirs : List FPath) : Option (List (String × ResolvedValue)) :=
  let si := source_images.getD []
  if si.isEmpty then some []
  else some (si.foldl (metadata_step fs search_dirs) [])

/-! Descriptions, stated in the claims, of the two dict transforms; these
are formulated from the claims' words so the theorems below can compare
them with the source-derived functions. -/

/-- Claim C8's description of one role's contribution: a sequence value is
mapped through `resolve_and_build_info` with nulls dropped, a resulting
singleton collapses to the bare record, a longer result stays a sequence;
a string value contributes its single record when one is built; a role
producing no info contributes nothing. -/
def processRoleClaim (fs : FS) (cfg : Option Config)
    (kv : String × RoleValue) : Option (String × RoleResult) :=
  match kv.2 with
  | RoleValue.listVal l =>
    match l.filterMap (resolve_and_build_info fs cfg) with
    | [] => none
    | [i] => some (kv.1, RoleResult.one i)
    | i :: j :: t => some (kv.1, RoleResult.many (i :: j :: t))
  | RoleValue.single (PyInput.pyStr p) =>
    Option.map (fun i => (kv.1, RoleResult.one i))
      (resolve_and_build_info fs cfg (PyInput.pyStr p))
  | RoleValue.single _ => none

/-- Claim C8's description of the whole role map: roles producing no info
are absent, and if no role yields any info the overall result is "none"
rather than an empty mapping. -/
def process_source_paths_claim (fs : FS) (cfg : Option Config)
    (sp : List (String × RoleValue)) : Option (List (String × RoleResult)) :=
  if sp.isEmpty then none
  else
    match sp.filterMap (processRoleClaim fs cfg) with
    | [] => none
    | l => some l

/-- Claim C10's description of one stored role's contribution: a list value
is resolved element-wise with failures dropped and a singleton collapsed to
the bare path; any other value contributes its resolved path when
resolution succeeds. -/
def metadataRoleClaim (fs : FS) (sd : List FPath)
    (kv : String × MetaEntry) : Option (String × ResolvedValue) :=
  match kv.2 with
  | MetaEntry.listEntry l =>
    match l.filterMap (fun item => resolve_source_image fs item sd) with
    | [] => none
    | [p] => some (kv.1, ResolvedValue.onePath p)
    | p :: q :: t => some (kv.1, ResolvedValue.manyPaths (p :: q :: t))
  | MetaEntry.singleEntry v =>
    Option.map (fun p => (kv.1, ResolvedValue.onePath p))
      (resolve_source_image fs v sd)

/-! Concrete filesystems used to test the claims on explicit inputs. -/

/-- Directory `a` (searched first) has only a recursive match `a/sub/f`;
directory `b` has the direct child file `b/f`. -/
def fsA : FS :=
  ⟨["r"],
   [⟨["a"], EntryKind.dir, 0⟩, ⟨["a", "sub"], EntryKind.dir, 0⟩,
    ⟨["a", "sub", "f"], EntryKind.file, 5⟩,
    ⟨["b"], EntryKind.dir, 0⟩, ⟨["b", "f"], EntryKind.file, 1⟩]⟩

/-- Directory `a` is an existing empty directory; `b/f` is a direct child
file. -/
def fsB : FS :=
  ⟨["r"],
   [⟨["a"], EntryKind.dir, 0⟩, ⟨["b"], EntryKind.dir, 0⟩,
    ⟨["b", "f"], EntryKind.file, 1⟩]⟩

/-- Directory `a` (searched first) has the direct child file `a/f`;
directory `b` has no direct match but two recursive matches with different
modification times. -/
def fsC : FS :=
  ⟨["r"],
   [⟨["a"], EntryKind.dir, 0⟩, ⟨["a", "f"], EntryKind.file, 1⟩,
    ⟨["b"], EntryKind.dir, 0⟩, ⟨["b", "s1"], EntryKind.dir, 0⟩,
    ⟨["b", "s1", "f"], EntryKind.file, 10⟩,
    ⟨["b", "s2"], EntryKind.dir, 0⟩,
    ⟨["b", "s2", "f"], EntryKind.file, 20⟩]⟩

/-- Two recursive matches for `f` inside one search directory, the second
more recently modified. -/
def fsD : FS :=
  ⟨["r"],
   [⟨["o"], EntryKind.dir, 0⟩, ⟨["o", "s1"], EntryKind.dir, 0⟩,
    ⟨["o", "s2"], EntryKind.dir, 0⟩,
    ⟨["o", "s1", "f"], EntryKind.file, 10⟩,
    ⟨["o", "s2", "f"], EntryKind.file, 20⟩]⟩

/-- The default outputs directory `r/outputs` contains the file `f`. -/
def fsE : FS :=
  ⟨["r"],
   [⟨["r", "outputs"], EntryKind.dir, 0⟩,
    ⟨["r", "outputs", "f"], EntryKind.file, 3⟩]⟩

/-- Directory `d` contains a SUBDIRECTORY named `img.png` and no file of
that name. -/
def fsF : FS :=
  ⟨["r"],
   [⟨["d"], EntryKind.dir, 0⟩, ⟨["d", "img.png"], EntryKind.dir, 7⟩]⟩

/-- Output directory `o` containing the real file `o/f.png`. -/
def fsG : FS :=
  ⟨["r"],
   [⟨["o"], EntryKind.dir, 0⟩, ⟨["o", "f.png"], EntryKind.file, 5⟩]⟩

/-- A temp-format record whose filename is findable in `fsG`. -/
def recG : SourceRecord :=
  ⟨some ["t", "f.png"], some "f.png", some true⟩

/-! Helper lemmas about the model. -/

theorem findLoop_cons (fs : FS) (fn : String) (r : Bool) (d : FPath)
    (ds : List FPath) :
    findLoop fs fn r (d :: ds) =
      if fs.isDir d then
        if fs.isFile (d ++ [fn]) then some (d ++ [fn])
        else if r then
          match fs.glob d fn with
          | [] => findLoop fs fn r ds
          | m :: ms => some (pyMax fs.getmtime m ms)
        else findLoop fs fn r ds
      else findLoop fs fn r ds := rfl

theorem pyMax_spec {α : Type} (key : α → Nat) (xs : List α) (x : α) :
    (pyMax key x xs = x ∨ pyMax key x xs ∈ xs) ∧
      key x ≤ key (pyMax key x xs) ∧
      ∀ y ∈ xs, key y ≤ key (pyMax key x xs) := by
  induction xs generalizing x with
  | nil => simp [pyMax]
  | cons a as ih =>
    by_cases hc : key x < key a
    · have hstep : pyMax key x (a :: as) = pyMax key a as := by
        simp [pyMax, hc]
      rcases ih a with ⟨hmem, hinit, hall⟩
      rw [hstep]
      refine ⟨?_, le_trans (le_of_lt hc) hinit, ?_⟩
      · rcases hmem with h | h
        · exact Or.inr (by rw [h]; exact List.mem_cons_self a as)
        · exact Or.inr (List.mem_cons_of_mem a h)
      · intro y hy
        rcases List.mem_cons.mp hy with rfl | hy'
        · exact hinit
        · exact hall y hy'
    · have hstep : pyMax key x (a :: as) = pyMax key x as := by
        simp [pyMax, hc]
      rcases ih x with ⟨hmem, hinit, hall⟩
      rw [hstep]
      refine ⟨?_, hinit, ?_⟩
      · rcases hmem with h | h
        · exact Or.inl h
        · exact Or.inr (List.mem_cons_of_mem a h)
      · intro y hy
        rcases List.mem_cons.mp hy with rfl | hy'
        · exact le_trans (le_of_not_lt hc) hinit
        · exact hall y hy'

theorem pyMax_eq_of_strict {α : Type} (key : α → Nat) (x : α) (xs : List α)
    (m : α) (hm : m = x ∨ m ∈ xs)
    (hstrict : ∀ y, (y = x ∨ y ∈ xs) → y ≠ m → key y < key m) :
    pyMax key x xs = m := by
  rcases pyMax_spec key xs x with ⟨hmem, hinit, hall⟩
  by_contra hne
  have h1 : key (pyMax key x xs) < key m := hstrict _ hmem hne
  have h2 : key m ≤ key (pyMax key x xs) := by
    rcases hm with rfl | h
    · exact hinit
    · exact hall m h
  exact absurd h2 (not_le.mpr h1)

theorem findLoop_append_of_empty (fs : FS) (fn : String) (r : Bool)
    (d₁ rest : List FPath)
    (h : ∀ d ∈ d₁, fs.isDir d = true →
        fs.isFile (d ++ [fn]) = false ∧ fs.glob d fn = []) :
    findLoop fs fn r (d₁ ++ rest) = findLoop fs fn r rest := by
  induction d₁ with
  | nil => rfl
  | cons d t ih =>
    have ht : ∀ d' ∈ t, fs.isDir d' = true →
        fs.isFile (d' ++ [fn]) = false ∧ fs.glob d' fn = [] :=
      fun d' hd' => h d' (List.mem_cons_of_mem _ hd')
    rw [List.cons_append, findLoop_cons]
    by_cases hd : fs.isDir d = true
    · rcases h d (List.mem_cons_self d t) hd with ⟨hf, hg⟩
      rw [if_pos hd, if_neg (by simp [hf]), hg]
      cases r
      · rw [if_neg (by simp)]
        exact ih ht
      · rw [if_pos rfl]
        exact ih ht
    · rw [if_neg hd]
      exact ih ht

theorem glob_mem_entry (fs : FS) (d : FPath) (fn : String) (p : FPath)
    (hp : p ∈ fs.glob d fn) :
    p.getLast? = some fn ∧ (fs.isFile p = true ∨ fs.isDir p = true) := by
  unfold FS.glob at hp
  rcases List.mem_map.mp hp with ⟨e, he, hep⟩
  rcases List.mem_filter.mp he with ⟨hin, hmatch⟩
  unfold globMatch at hmatch
  rw [Bool.and_eq_true, Bool.and_eq_true] at hmatch
  have hlast : p.getLast? = some fn := by
    have := hmatch.2
    rw [beq_iff_eq] at this
    rw [← hep]
    exact this
  refine ⟨hlast, ?_⟩
  cases hk : e.kind
  · left
    unfold FS.isFile
    rw [List.any_eq_true]
    exact ⟨e, hin, by simp [hep, hk]⟩
  · right
    unfold FS.isDir
    rw [List.any_eq_true]
    exact ⟨e, hin, by simp [hep, hk]⟩

theorem findLoop_last_and_entry (fs : FS) (fn : String) (r : Bool)
    (ds : List FPath) (p : FPath) (h : findLoop fs fn r ds = some p) :
    p.getLast? = some fn ∧ (fs.isFile p = true ∨ fs.isDir p = true) := by
  induction ds with
  | nil => simp [findLoop] at h
  | cons d t ih =>
    rw [findLoop_cons] at h
    by_cases hd : fs.isDir d = true
    · rw [if_pos hd] at h
      by_cases hf : fs.isFile (d ++ [fn]) = true
      · rw [if_pos hf] at h
        rw [Option.some.injEq] at h
        subst h
        exact ⟨by simp, Or.inl hf⟩
      · rw [if_neg hf] at h
        cases r with
        | false =>
          rw [if_neg (by simp)] at h
          exact ih h
        | true =>
          rw [if_pos rfl] at h
          cases hg : fs.glob d fn with
          | nil =>
            rw [hg] at h
            exact ih h
          | cons m ms =>
            rw [hg] at h
            rw [Option.some.injEq] at h
            have hmem : p ∈ fs.glob d fn := by
              rw [hg]
              rcases (pyMax_spec fs.getmtime ms m).1 with he | he
              · rw [← h, he]
                exact List.mem_cons_self _ _
              · rw [← h]
                exact List.mem_cons_of_mem _ he
            exact glob_mem_entry fs d fn p hmem
    · rw [if_neg hd] at h
      exact ih h

theorem foldl_append_toList {α β : Type} (g : α → Option β)
    (step : List β → α → List β)
    (hstep : ∀ acc x, step acc x = acc ++ (g x).toList)
    (l : List α) (acc : List β) :
    l.foldl step acc = acc ++ l.filterMap g := by
  induction l generalizing acc with
  | nil => simp
  | cons x t ih =>
    rw [List.foldl_cons, ih, hstep]
    cases hx : g x
    · simp [List.filterMap_cons, hx]
    · simp [List.filterMap_cons, hx]

/-! The claims. -/

/-- Claim C1, counterexample: `f` IS a direct file child of listed directory
`b` (the first and only such directory), yet the search returns the
recursive match found under the earlier listed directory `a`, not `b/f`. -/
theorem claim1_counterexample :
    fsA.isFile (["a"] ++ ["f"]) = false ∧
    fsA.isFile (["b"] ++ ["f"]) = true ∧
    find_file_by_name fsA "f" [["a"], ["b"]] true = some ["a", "sub", "f"] ∧
    find_file_by_name fsA "f" [["a"], ["b"]] true ≠ some (["b"] ++ ["f"]) := by
  decide

/-- Claim C1, amended: if `d` is an existing listed directory whose direct
child `d/filename` is a regular file, and every EARLIER listed directory
that exists yields neither a direct match nor any recursive glob match,
then `find_file_by_name` returns `d/filename` immediately: the direct match
short-circuits the recursive scan of `d` (whatever `fs.glob` holds there)
and all later directories. -/
theorem claim1_amended (fs : FS) (fn : String) (d₁ d₂ : List FPath)
    (d : FPath) (h0 : fn ≠ "")
    (h1 : ∀ d' ∈ d₁, fs.isDir d' = true →
        fs.isFile (d' ++ [fn]) = false ∧ fs.glob d' fn = [])
    (h2 : fs.isDir d = true) (h3 : fs.isFile (d ++ [fn]) = true) :
    find_file_by_name fs fn (d₁ ++ d :: d₂) true = some (d ++ [fn]) := by
  unfold find_file_by_name
  rw [if_neg h0, if_neg (by simp), findLoop_append_of_empty fs fn true d₁ _ h1,
    findLoop_cons, if_pos h2, if_pos h3]

/-- Claim C1, witness: concrete instance of the amended theorem on `fsB`. -/
theorem claim1_witness :
    find_file_by_name fsB "f" ([["a"]] ++ ["b"] :: []) true =
      some (["b"] ++ ["f"]) :=
  claim1_amended fsB "f" [["a"]] [] ["b"] (by decide) (by decide) (by decide)
    (by decide)

/-- Claim C2, counterexample: directory `b` has no direct match and its
subtree contains two entries named `f` with different modification times,
yet the most recently modified one is NOT returned: the earlier listed
directory `a` already yields a match, so `b`'s matches are never compared. -/
theorem claim2_counterexample :
    fsC.isFile (["b"] ++ ["f"]) = false ∧
    fsC.glob ["b"] "f" = [["b", "s1", "f"], ["b", "s2", "f"]] ∧
    fsC.getmtime ["b", "s1", "f"] < fsC.getmtime ["b", "s2", "f"] ∧
    find_file_by_name fsC "f" [["a"], ["b"]] true = some ["a", "f"] ∧
    find_file_by_name fsC "f" [["a"], ["b"]] true ≠ some ["b", "s2", "f"] := by
  decide

/-- Claim C2, amended: modification times are only compared WITHIN one
directory's recursive matches.  If the earlier listed directories yield no
match, directory `d` exists, has no direct match, and `m` is the strictly
most recently modified of `d`'s recursive matches, then `m` is returned;
matches in later directories are never consulted. -/
theorem claim2_amended (fs : FS) (fn : String) (d₁ d₂ : List FPath)
    (d : FPath) (m : FPath) (h0 : fn ≠ "")
    (h1 : ∀ d' ∈ d₁, fs.isDir d' = true →
        fs.isFile (d' ++ [fn]) = false ∧ fs.glob d' fn = [])
    (h2 : fs.isDir d = true) (h3 : fs.isFile (d ++ [fn]) = false)
    (hm : m ∈ fs.glob d fn)
    (hmax : ∀ m' ∈ fs.glob d fn, m' ≠ m → fs.getmtime m' < fs.getmtime m) :
    find_file_by_name fs fn (d₁ ++ d :: d₂) true = some m := by
  unfold find_file_by_name
  rw [if_neg h0, if_neg (by simp), findLoop_append_of_empty fs fn true d₁ _ h1,
    findLoop_cons, if_pos h2, if_neg (by simp [h3]), if_pos rfl]
  cases hg : fs.glob d fn with
  | nil =>
    rw [hg] at hm
    simp at hm
  | cons a as =>
    rw [Option.some.injEq]
    apply pyMax_eq_of_strict
    · rw [hg] at hm
      rcases List.mem_cons.mp hm with h | h
      · exact Or.inl h
      · exact Or.inr h
    · intro y hy hne
      refine hmax y ?_ hne
      rw [hg]
      rcases hy with rfl | h
      · exact List.mem_cons_self _ _
      · exact List.mem_cons_of_mem _ h

/-- Claim C2, witness: two recursive matches inside one directory with
modification times 10 and 20; the amended theorem yields the newer one. -/
theorem claim2_witness :
    find_file_by_name fsD "f" ([] ++ ["o"] :: []) true =
      some ["o", "s2", "f"] :=
  claim2_amended fsD "f" [] [] ["o"] ["o", "s2", "f"] (by decide) (by decide)
    (by decide) (by decide) (by decide) (by decide)

/-- Claim C3, counterexample: with an empty search-directory list and the
file present under the default `root/outputs` directory, the search returns
that path instead of the claimed "not found". -/
theorem claim3_counterexample :
    find_file_by_name fsE "f" [] true = some ["r", "outputs", "f"] ∧
    find_file_by_name fsE "f" [] true ≠ none := by
  decide

/-- Claim C3, amended: an empty search-directory list is NOT searched as
empty; the code substitutes the default outputs directory (Python
`if not search_dirs`), so the call behaves exactly like searching
`[root/outputs]`, and "not found" results only when that directory yields
no match. -/
theorem claim3_amended (fs : FS) (fn : String) (r : Bool) :
    find_file_by_name fs fn [] r =
      find_file_by_name fs fn [defaultOutputs fs] r := by
  unfold find_file_by_name
  by_cases h : fn = ""
  · rw [if_pos h, if_pos h]
  · rw [if_neg h, if_neg h, if_pos rfl, if_neg (by simp)]

/-- Claim C4, counterexample: on a path containing the upload-tool marker
and the appdata marker but no temp marker, the two classifications differ:
`resolve_source_image` (src/utils.py line 89) says non-temporary while
`resolve_and_build_info` (src/plugin.py line 87) says temporary.  They are
therefore not the same function, and only the plugin one matches the
claimed gradio-and-(temp-or-appdata) rule. -/
theorem claim4_counterexample :
    resolve_is_temp "C:/Users/u/AppData/Roaming/gradio/img.png" = false ∧
    build_is_temp "C:/Users/u/AppData/Roaming/gradio/img.png" = true := by
  decide

/-- Claim C4, amended: `resolve_and_build_info`'s classification is the
claimed one (upload-tool marker and temp-or-appdata marker), and
`resolve_source_image`'s differs exactly by ignoring the appdata marker:
`build_is_temp = resolve_is_temp OR (gradio AND appdata)`.  The two agree
on every path lacking the appdata marker. -/
theorem claim4_amended (s : String) :
    build_is_temp s =
      (resolve_is_temp s ||
        (hasSub "gradio".toList (lowerStr s) &&
          hasSub "appdata".toList (lowerStr s))) := by
  unfold build_is_temp resolve_is_temp
  cases hasSub "gradio".toList (lowerStr s) <;>
    cases hasSub "temp".toList (lowerStr s) <;>
      cases hasSub "appdata".toList (lowerStr s) <;> rfl

/-- Claim C5, counterexample: the recursive glob matches a SUBDIRECTORY
named `img.png`; the search returns it although it is not a regular file. -/
theorem claim5_counterexample :
    find_file_by_name fsF "img.png" [["d"]] true = some ["d", "img.png"] ∧
    fsF.isFile ["d", "img.png"] = false ∧
    fsF.isDir ["d", "img.png"] = true := by
  decide

/-- Claim C5, amended: every path returned by `find_file_by_name` has
basename equal to the searched filename and is an existing filesystem
entry, but that entry may be a regular file OR a directory: the recursive
glob branch does not filter directories out. -/
theorem claim5_amended (fs : FS) (fn : String) (sd : List FPath) (r : Bool)
    (p : FPath) (h : find_file_by_name fs fn sd r = some p) :
    p.getLast? = some fn ∧ (fs.isFile p = true ∨ fs.isDir p = true) := by
  unfold find_file_by_name at h
  by_cases hfn : fn = ""
  · rw [if_pos hfn] at h
    simp at h
  · rw [if_neg hfn] at h
    exact findLoop_last_and_entry fs fn r _ p h

/-- Claim C5, witness: concrete instance of the amended theorem on `fsG`. -/
theorem claim5_witness :
    (["o", "f.png"] : FPath).getLast? = some "f.png" ∧
    (fsG.isFile ["o", "f.png"] = true ∨ fsG.isDir ["o", "f.png"] = true) :=
  claim5_amended fsG "f.png" [["o"]] true ["o", "f.png"] (by decide)

/-- Claim C6, confirmed: on a record with `is_temp` true,
`resolve_source_image` returns the result of the filename search when it
succeeds (the resolved real path, not the temp path); otherwise it returns
the record's path exactly when that path is a non-empty existing file;
otherwise "not found".  An absent or empty filename makes the search fail
(`find_file_by_name` of `""` is `none`), matching the code's skipped
search. -/
theorem claim6_theorem (fs : FS) (r : SourceRecord) (sd : List FPath)
    (h : r.is_temp = some true) :
    resolve_source_image fs (SourceInfo.dictVal r) sd =
      match find_file_by_name fs (r.filename.getD "") sd true with
      | some q => some q
      | none => if pathTruthyFile fs r.path then r.path else none := by
  have hne : r.isEmptyDict = false := by
    unfold SourceRecord.isEmptyDict
    rw [h]
    simp
  have hfind :
      (match r.filename with
        | some f => if f = "" then none else find_file_by_name fs f sd true
        | none => none) =
      find_file_by_name fs (r.filename.getD "") sd true := by
    cases r.filename with
    | none => simp [find_file_by_name]
    | some f =>
      by_cases hf : f = ""
      · subst hf
        simp [find_file_by_name]
      · simp [hf]
  simp only [resolve_source_image, hne, Bool.false_eq_true, if_false, h,
    Option.getD_some, Bool.not_true, Bool.false_and, hfind]

/-- Claim C6, witness: concrete instance on `fsG` and record `recG`, whose
filename `f.png` is findable at `o/f.png`. -/
theorem claim6_witness :
    resolve_source_image fsG (SourceInfo.dictVal recG) [["o"]] =
      some ["o", "f.png"] := by
  rw [claim6_theorem fsG recG [["o"]] rfl]
  decide

/-- Claim C9, confirmed: an empty (or absent) filename makes
`find_file_by_name` return "not found", and `resolve_and_build_info` on an
empty string, `None`, or a non-string value returns "no info".  Both are
ordinary `none` results of total functions, not exceptions. -/
theorem claim9_theorem (fs : FS) (sd : List FPath) (r : Bool)
    (cfg : Option Config) :
    find_file_by_name fs "" sd r = none ∧
    resolve_and_build_info fs cfg PyInput.pyNone = none ∧
    resolve_and_build_info fs cfg (PyInput.pyStr []) = none ∧
    resolve_and_build_info fs cfg PyInput.pyOther = none :=
  ⟨rfl, rfl, rfl, rfl⟩

/-- Claim C7, confirmed: every info record built by
`resolve_and_build_info` carries the basename as `filename` and the
heuristic classification as `is_temp`, and populates exactly one of
`original_path` / `temp_path`: the temp path exactly when the input is
classified temporary and the output-directory search fails, the original
path exactly when the input is non-temporary or the search succeeds. -/
theorem claim7_theorem (fs : FS) (cfg : Option Config) (p : FPath)
    (info : ImageInfo)
    (h : resolve_and_build_info fs cfg (PyInput.pyStr p) = some info) :
    info.filename = basenameOf p ∧
    info.is_temp = build_is_temp (pathRepr p) ∧
    ((info.original_path.isSome = true ∧ info.temp_path = none) ∨
      (info.original_path = none ∧ info.temp_path.isSome = true)) ∧
    (info.temp_path = some p ↔
      (build_is_temp (pathRepr p) = true ∧
        find_file_by_name fs (basenameOf p)
          (get_configured_output_dirs fs cfg) true = none)) ∧
    (info.original_path.isSome = true ↔
      (build_is_temp (pathRepr p) = false ∨
        (find_file_by_name fs (basenameOf p)
          (get_configured_output_dirs fs cfg) true).isSome = true)) := by
  obtain ⟨f₁, f₂, f₃, f₄⟩ := info
  by_cases hp : p = []
  · subst hp
    simp [resolve_and_build_info] at h
  · by_cases ht : build_is_temp (pathRepr p) = true
    · cases hf : find_file_by_name fs (basenameOf p)
          (get_configured_output_dirs fs cfg) true with
      | some orig =>
        simp only [resolve_and_build_info, hp, ht, hf, if_true, if_false,
          ite_false, ite_true, Option.some.injEq, ImageInfo.mk.injEq] at h
        obtain ⟨h1, h2, h3, h4⟩ := h
        subst h1; subst h2; subst h3; subst h4
        simp [ht, hf]
      | none =>
        simp only [resolve_and_build_info, hp, ht, hf, if_true, if_false,
          ite_false, ite_true, Option.some.injEq, ImageInfo.mk.injEq] at h
        obtain ⟨h1, h2, h3, h4⟩ := h
        subst h1; subst h2; subst h3; subst h4
        simp [ht, hf]
    · have ht' : build_is_temp (pathRepr p) = false := by
        cases hb : build_is_temp (pathRepr p)
        · rfl
        · exact absurd hb ht
      simp only [resolve_and_build_info, hp, ht', Bool.false_eq_true,
        if_false, ite_false, ite_true, Option.some.injEq,
        ImageInfo.mk.injEq] at h
      obtain ⟨h1, h2, h3, h4⟩ := h
      subst h1; subst h2; subst h3; subst h4
      simp [ht']

/-- Claim C7, witness: concrete instance on `fsG` with a non-temporary
input path; the inferred info populates `original_path` only. -/
theorem claim7_witness :
    ({ filename := "x.png", is_temp := false,
       original_path := some ["x.png"], temp_path := none } :
        ImageInfo).filename = basenameOf ["x.png"] ∧
    ({ filename := "x.png", is_temp := false,
       original_path := some ["x.png"], temp_path := none } :
        ImageInfo).is_temp = build_is_temp (pathRepr ["x.png"]) ∧
    ((({ filename := "x.png", is_temp := false,
         original_path := some ["x.png"], temp_path := none } :
          ImageInfo).original_path.isSome = true ∧
      ({ filename := "x.png", is_temp := false,
         original_path := some ["x.png"], temp_path := none } :
          ImageInfo).temp_path = none) ∨
      (({ filename := "x.png", is_temp := false,
          original_path := some ["x.png"], temp_path := none } :
           ImageInfo).original_path = none ∧
       ({ filename := "x.png", is_temp := false,
          original_path := some ["x.png"], temp_path := none } :
           ImageInfo).temp_path.isSome = true)) ∧
    (({ filename := "x.png", is_temp := false,
        original_path := some ["x.png"], temp_path := none } :
         ImageInfo).temp_path = some ["x.png"] ↔
      (build_is_temp (pathRepr ["x.png"]) = true ∧
        find_file_by_name fsG (basenameOf ["x.png"])
          (get_configured_output_dirs fsG none) true = none)) ∧
    (({ filename := "x.png", is_temp := false,
        original_path := some ["x.png"], temp_path := none } :
         ImageInfo).original_path.isSome = true ↔
      (build_is_temp (pathRepr ["x.png"]) = false ∨
        (find_file_by_name fsG (basenameOf ["x.png"])
          (get_configured_output_dirs fsG none) true).isSome = true)) :=
  claim7_theorem fsG none ["x.png"]
    { filename := "x.png", is_temp := false,
      original_path := some ["x.png"], temp_path := none } (by decide)

theorem process_step_eq_toList (fs : FS) (cfg : Option Config)
    (acc : List (String × RoleResult)) (kv : String × RoleValue) :
    process_step fs cfg acc kv = acc ++ (processRoleClaim fs cfg kv).toList := by
  obtain ⟨k, v⟩ := kv
  cases v with
  | listVal l =>
    cases hl : l.filterMap (resolve_and_build_info fs cfg) with
    | nil => simp [process_step, processRoleClaim, hl]
    | cons i t =>
      cases t with
      | nil => simp [process_step, processRoleClaim, hl]
      | cons j t' => simp [process_step, processRoleClaim, hl]
  | single u =>
    cases u with
    | pyNone => simp [process_step, processRoleClaim]
    | pyOther => simp [process_step, processRoleClaim]
    | pyStr p =>
      cases hr : resolve_and_build_info fs cfg (PyInput.pyStr p) with
      | some i => simp [process_step, processRoleClaim, hr]
      | none => simp [process_step, processRoleClaim, hr]

theorem metadata_step_eq_toList (fs : FS) (sd : List FPath)
    (acc : List (String × ResolvedValue)) (kv : String × MetaEntry) :
    metadata_step fs sd acc kv = acc ++ (metadataRoleClaim fs sd kv).toList := by
  obtain ⟨k, v⟩ := kv
  cases v with
  | listEntry l =>
    cases hl : l.filterMap (fun item => resolve_source_image fs item sd) with
    | nil => simp [metadata_step, metadataRoleClaim, hl]
    | cons p t =>
      cases t with
      | nil => simp [metadata_step, metadataRoleClaim, hl]
      | cons q t' => simp [metadata_step, metadataRoleClaim, hl]
  | singleEntry v =>
    cases v with
    | noneVal => simp [metadata_step, metadataRoleClaim, resolve_source_image]
    | otherVal => simp [metadata_step, metadataRoleClaim, resolve_source_image]
    | strVal p =>
      cases hr : resolve_source_image fs (SourceInfo.strVal p) sd with
      | some q => simp [metadata_step, metadataRoleClaim, hr]
      | none => simp [metadata_step, metadataRoleClaim, hr]
    | dictVal r =>
      cases hr : resolve_source_image fs (SourceInfo.dictVal r) sd with
      | some q => simp [metadata_step, metadataRoleClaim, hr]
      | none => simp [metadata_step, metadataRoleClaim, hr]

/-- Claim C8, confirmed: `process_source_paths` computes exactly the map
described by the claim — each role's sequence value is mapped through
`resolve_and_build_info` with nulls dropped and a singleton collapsed to
the bare record, roles producing no info are omitted, and an input with no
contributing role yields "none" rather than an empty mapping. -/
theorem claim8_theorem (fs : FS) (cfg : Option Config)
    (sp : List (String × RoleValue)) :
    process_source_paths fs cfg sp = process_source_paths_claim fs cfg sp := by
  unfold process_source_paths process_source_paths_claim
  by_cases hsp : sp.isEmpty = true
  · rw [if_pos hsp, if_pos hsp]
  · rw [if_neg hsp, if_neg hsp]
    have hfold := foldl_append_toList (processRoleClaim fs cfg)
      (process_step fs cfg) (process_step_eq_toList fs cfg) sp []
    rw [List.nil_append] at hfold
    simp only [hfold]
    cases sp.filterMap (processRoleClaim fs cfg) with
    | nil => simp
    | cons a t => simp

/-- Claim C10, confirmed: `get_source_images_from_metadata` always returns
a mapping (never "none"); with no stored `source_images` entry (or an empty
one) the mapping is empty; otherwise each role's entries are resolved with
failures dropped, roles whose entries all fail are omitted, and a role with
exactly one resolved path is collapsed to that bare path. -/
theorem claim10_theorem (fs : FS)
    (source_images : Option (List (String × MetaEntry))) (sd : List FPath) :
    get_source_images_from_metadata fs source_images sd =
      some ((source_images.getD []).filterMap (metadataRoleClaim fs sd)) := by
  unfold get_source_images_from_metadata
  cases hsi : source_images.getD [] with
  | nil => simp
  | cons kv t =>
    rw [if_neg (by simp)]
    have hfold := foldl_append_toList (metadataRoleClaim fs sd)
      (metadata_step fs sd) (metadata_step_eq_toList fs sd) (kv :: t) []
    rw [List.nil_append] at hfold
    rw [hfold]

end Wan2GP
